import Mathlib

/-!
Verification development for the only-locks backend (pick grading,
stat aggregation, and pick creation), shallowly embedded from the
JavaScript models in src/models (player.js, team.js, user.js, game.js).
Database rows become Lean structures, each SQL statement becomes an
explicit state transformation, and JavaScript number arithmetic for the
aggregation views is modelled by an algebraic type that tracks NaN and
the infinities.
-/

namespace OnlyLocks

/-! ## JavaScript number semantics used by the stat aggregator

The aggregator divides season totals by games played or minutes and
falls back with the pattern x || 0.  In JavaScript, 0/0 is NaN (falsy,
so the fallback yields 0) while q/0 for q not 0 is an infinity (truthy,
so the fallback keeps it). -/

inductive JsNum where
  | num (q : ℚ)
  | nan
  | posInf
  | negInf
deriving DecidableEq


/-- JavaScript division on numbers: q/0 is NaN when q = 0, otherwise a
signed infinity. Division involving NaN is NaN. -/
def jsDiv : JsNum → JsNum → JsNum
  | .num a, .num b =>
      if b = 0 then (if a = 0 then .nan else if 0 < a then .posInf else .negInf)
      else .num (a / b)
  | .nan, _ => .nan
  | _, .nan => .nan
  | .posInf, .num b => if b = 0 then .nan else if 0 < b then .posInf else .negInf
  | .negInf, .num b => if b = 0 then .nan else if 0 < b then .negInf else .posInf
  | .num _, .posInf => .num 0
  | .num _, .negInf => .num 0
  | .posInf, .posInf => .nan
  | .posInf, .negInf => .nan
  | .negInf, .posInf => .nan
  | .negInf, .negInf => .nan

/-- JavaScript multiplication on numbers, with infinity times a nonzero
number keeping the sign and infinity times 0 being NaN. -/
def jsMul : JsNum → JsNum → JsNum
  | .num a, .num b => .num (a * b)
  | .nan, _ => .nan
  | _, .nan => .nan
  | .posInf, .num b => if b = 0 then .nan else if 0 < b then .posInf else .negInf
  | .negInf, .num b => if b = 0 then .nan else if 0 < b then .negInf else .posInf
  | .num a, .posInf => if a = 0 then .nan else if 0 < a then .posInf else .negInf
  | .num a, .negInf => if a = 0 then .nan else if 0 < a then .negInf else .posInf
  | .posInf, .posInf => .posInf
  | .posInf, .negInf => .negInf
  | .negInf, .posInf => .negInf
  | .negInf, .negInf => .posInf

/-- The x || 0 fallback: NaN (and 0 itself) are falsy and give 0; the
infinities are truthy and are kept. -/
def jsOrZero : JsNum → JsNum
  | .num q => .num q
  | .nan => .num 0
  | .posInf => .posInf
  | .negInf => .negInf

/-- One per-game figure of the seasonStats view: stat / gp || 0. -/
def perGameFig (total gp : ℚ) : JsNum :=
  jsOrZero (jsDiv (.num total) (.num gp))

/-- One per-36-minutes figure of the seasonStats view:
(stat / minutes) * 36 || 0. -/
def per36Fig (total minutes : ℚ) : JsNum :=
  jsOrZero (jsMul (jsDiv (.num total) (.num minutes)) (.num 36))

/-- A shooting percentage written by Player.updateSeasonStats:
(made / attempted) * 100 || 0. -/
def updateSeasonPct (made attempted : ℚ) : JsNum :=
  jsOrZero (jsMul (jsDiv (.num made) (.num attempted)) (.num 100))

/-- The season_stats row joined with player name and team code, as read
by Player.seasonStats. -/
structure SeasonRow where
  id : ℚ
  name : String
  code : String
  gp : ℚ
  minutes : ℚ
  points : ℚ
  fgm : ℚ
  fga : ℚ
  fgp : ℚ
  ftm : ℚ
  fta : ℚ
  ftp : ℚ
  tpm : ℚ
  tpa : ℚ
  tpp : ℚ
  offReb : ℚ
  defReb : ℚ
  totalReb : ℚ
  assists : ℚ
  fouls : ℚ
  steals : ℚ
  turnovers : ℚ
  blocks : ℚ
  plusMinus : ℚ


/-- The perGame object literal built by Player.seasonStats. -/
structure PerGameView where
  name : String
  code : String
  assists : JsNum
  blocks : JsNum
  defReb : JsNum
  fga : JsNum
  fgm : JsNum
  fgp : JsNum
  fouls : JsNum
  fta : JsNum
  ftm : JsNum
  ftp : JsNum
  gp : JsNum
  id : JsNum
  minutes : JsNum
  offReb : JsNum
  plusMinus : JsNum
  points : JsNum
  steals : JsNum
  totalReb : JsNum
  tpa : JsNum
  tpm : JsNum
  tpp : JsNum
  turnovers : JsNum


/-- The per36 object literal built by Player.seasonStats. -/
structure Per36View where
  name : String
  code : String
  assists : JsNum
  blocks : JsNum
  defReb : JsNum
  fga : JsNum
  fgm : JsNum
  fgp : JsNum
  fouls : JsNum
  fta : JsNum
  ftm : JsNum
  ftp : JsNum
  gp : JsNum
  id : JsNum
  minutes : JsNum
  offReb : JsNum
  plusMinus : JsNum
  points : JsNum
  steals : JsNum
  totalReb : JsNum
  tpa : JsNum
  tpm : JsNum
  tpp : JsNum
  turnovers : JsNum


/-- Per-game view of a season row: every counting stat divided by gp
with || 0, percentage fields copied through with || 0, gp and id with
|| 0. -/
def perGameView (s : SeasonRow) : PerGameView where
  name := s.name
  code := s.code
  assists := perGameFig s.assists s.gp
  blocks := perGameFig s.blocks s.gp
  defReb := perGameFig s.defReb s.gp
  fga := perGameFig s.fga s.gp
  fgm := perGameFig s.fgm s.gp
  fgp := jsOrZero (.num s.fgp)
  fouls := perGameFig s.fouls s.gp
  fta := perGameFig s.fta s.gp
  ftm := perGameFig s.ftm s.gp
  ftp := jsOrZero (.num s.ftp)
  gp := jsOrZero (.num s.gp)
  id := jsOrZero (.num s.id)
  minutes := perGameFig s.minutes s.gp
  offReb := perGameFig s.offReb s.gp
  plusMinus := perGameFig s.plusMinus s.gp
  points := perGameFig s.points s.gp
  steals := perGameFig s.steals s.gp
  totalReb := perGameFig s.totalReb s.gp
  tpa := perGameFig s.tpa s.gp
  tpm := perGameFig s.tpm s.gp
  tpp := jsOrZero (.num s.tpp)
  turnovers := perGameFig s.turnovers s.gp

/-- Per-36 view of a season row: every counting stat scaled by
(36 / minutes) with || 0; percentage fields copied; gp and id copied
without the fallback. -/
def per36View (s : SeasonRow) : Per36View where
  name := s.name
  code := s.code
  assists := per36Fig s.assists s.minutes
  blocks := per36Fig s.blocks s.minutes
  defReb := per36Fig s.defReb s.minutes
  fga := per36Fig s.fga s.minutes
  fgm := per36Fig s.fgm s.minutes
  fgp := jsOrZero (.num s.fgp)
  fouls := per36Fig s.fouls s.minutes
  fta := per36Fig s.fta s.minutes
  ftm := per36Fig s.ftm s.minutes
  ftp := jsOrZero (.num s.ftp)
  gp := .num s.gp
  id := .num s.id
  minutes := per36Fig s.minutes s.minutes
  offReb := per36Fig s.offReb s.minutes
  plusMinus := per36Fig s.plusMinus s.minutes
  points := per36Fig s.points s.minutes
  steals := per36Fig s.steals s.minutes
  totalReb := per36Fig s.totalReb s.minutes
  tpa := per36Fig s.tpa s.minutes
  tpm := per36Fig s.tpm s.minutes
  tpp := jsOrZero (.num s.tpp)
  turnovers := per36Fig s.turnovers s.minutes

/-- The { totals, per36, perGame } result of Player.seasonStats. -/
structure SeasonStatsResult where
  totals : SeasonRow
  per36 : Per36View
  perGame : PerGameView


/-- Player.seasonStats: read the season_stats row, then overwrite its gp
field with the live COUNT of game_stats rows for the player, then build
the per-game and per-36 views from the mutated row. -/
def Player.seasonStats (row : SeasonRow) (gamesPlayedCount : ℕ) : SeasonStatsResult :=
  let row' : SeasonRow := { row with gp := (gamesPlayedCount : ℚ) }
  { totals := row', per36 := per36View row', perGame := perGameView row' }

/-! ## Database state for pick grading and pick creation

The tables touched by the pick logic: games (with lifecycle status and
winner), game_stats (player box scores), player_picks, team_picks and
users.  The players and teams tables only matter through existence
checks, so they are carried as id lists. -/

structure Game where
  id : ℕ
  status : String
  winner : Option ℕ

structure GameStat where
  playerId : ℕ
  gameId : ℕ
  minutes : ℚ
  points : ℚ
  fgm : ℚ
  fga : ℚ
  fgp : ℚ
  ftm : ℚ
  fta : ℚ
  ftp : ℚ
  tpm : ℚ
  tpa : ℚ
  tpp : ℚ
  offReb : ℚ
  defReb : ℚ
  totalReb : ℚ
  assists : ℚ
  fouls : ℚ
  steals : ℚ
  turnovers : ℚ
  blocks : ℚ
  plusMinus : ℚ

structure PlayerPick where
  id : ℕ
  username : String
  playerId : ℕ
  stat : String
  overUnder : String
  value : ℚ
  gameId : ℕ
  pointValue : ℚ
  result : Option Bool

structure TeamPick where
  id : ℕ
  username : String
  teamId : ℕ
  gameId : ℕ
  winSpread : String
  value : ℚ
  pointValue : ℚ
  result : Option Bool

structure UserRow where
  username : String
  wins : ℤ
  losses : ℤ
  points : ℚ

structure Db where
  users : List UserRow
  players : List ℕ
  teams : List ℕ
  games : List Game
  gameStats : List GameStat
  playerPicks : List PlayerPick
  teamPicks : List TeamPick
  nextPlayerPickId : ℕ
  nextTeamPickId : ℕ

/-- Errors surfaced by the database driver during grading. -/
inductive DbError where
  | bindMismatch
  | undefinedColumn
deriving DecidableEq

/-- Row lookup behind the games JOIN (games.id is the primary key). -/
def gameFor (db : Db) (gid : ℕ) : Option Game :=
  db.games.find? (fun g => g.id == gid)

/-- Whether the game referenced by a pick exists and has status
finished, as in the working-set queries of both graders. -/
def finishedGame (db : Db) (gid : ℕ) : Bool :=
  match gameFor db gid with
  | some g => g.status == "finished"
  | none => false

/-- The open-pick working set of Player.updatePicks: picks with result
IS NULL joined to a finished game. -/
def playerPicksWorkingSet (db : Db) : List PlayerPick :=
  db.playerPicks.filter (fun p => p.result == none && finishedGame db p.gameId)

/-- The column expression interpolated into SELECT ... AS amount FROM
game_stats; unknown column names make the statement fail. -/
def gameStatColumn : String → Option (GameStat → ℚ)
  | "minutes" => some (·.minutes)
  | "points" => some (·.points)
  | "fgm" => some (·.fgm)
  | "fga" => some (·.fga)
  | "fgp" => some (·.fgp)
  | "ftm" => some (·.ftm)
  | "fta" => some (·.fta)
  | "ftp" => some (·.ftp)
  | "tpm" => some (·.tpm)
  | "tpa" => some (·.tpa)
  | "tpp" => some (·.tpp)
  | "off_reb" => some (·.offReb)
  | "def_reb" => some (·.defReb)
  | "total_reb" => some (·.totalReb)
  | "assists" => some (·.assists)
  | "fouls" => some (·.fouls)
  | "steals" => some (·.steals)
  | "turnovers" => some (·.turnovers)
  | "blocks" => some (·.blocks)
  | "plus_minus" => some (·.plusMinus)
  | "off_reb + def_reb" => some (fun g => g.offReb + g.defReb)
  | _ => none

/-- The stat name a pick is graded with: the loop first replaces the
derived stat rebounds with the column sum off_reb + def_reb. -/
def gradeStatName (p : PlayerPick) : String :=
  if p.stat == "rebounds" then "off_reb + def_reb" else p.stat

/-- SELECT stat AS amount FROM game_stats WHERE player_id AND game_id:
an unknown column is a statement error, an absent row yields no amount,
otherwise the first matching row supplies the amount. -/
def selectAmount (stats : List GameStat) (stat : String) (pid gid : ℕ) :
    Except DbError (Option ℚ) :=
  match gameStatColumn stat with
  | none => .error .undefinedColumn
  | some f => .ok ((stats.find? (fun g => g.playerId == pid && g.gameId == gid)).map f)

/-- UPDATE player_picks SET result WHERE id, applied to one row. -/
def setPlayerPickResult (b : Bool) (pickId : ℕ) (p : PlayerPick) : PlayerPick :=
  if p.id == pickId then { p with result := some b } else p

def dbSetPlayerPickResult (db : Db) (pickId : ℕ) (b : Bool) : Db :=
  { db with playerPicks := db.playerPicks.map (setPlayerPickResult b pickId) }

/-- UPDATE team_picks SET result WHERE id, applied to one row. -/
def setTeamPickResult (b : Bool) (pickId : ℕ) (p : TeamPick) : TeamPick :=
  if p.id == pickId then { p with result := some b } else p

def dbSetTeamPickResult (db : Db) (pickId : ℕ) (b : Bool) : Db :=
  { db with teamPicks := db.teamPicks.map (setTeamPickResult b pickId) }

/-- UPDATE users SET wins = wins + 1, points = points + pointValue
WHERE username, applied to one row. -/
def recordWin (pointValue : ℚ) (username : String) (u : UserRow) : UserRow :=
  if u.username == username then
    { u with wins := u.wins + 1, points := u.points + pointValue }
  else u

def dbRecordWin (db : Db) (pointValue : ℚ) (username : String) : Db :=
  { db with users := db.users.map (recordWin pointValue username) }

/-- UPDATE users SET losses = losses + 1 WHERE username. -/
def recordLoss (username : String) (u : UserRow) : UserRow :=
  if u.username == username then { u with losses := u.losses + 1 } else u

def dbRecordLoss (db : Db) (username : String) : Db :=
  { db with users := db.users.map (recordLoss username) }

/-- One iteration of the Player.updatePicks loop.  A missing box-score
row skips the pick (continue).  OVER wins strictly above the threshold,
UNDER wins strictly below; each losing branch records a loss.  The
winning UNDER branch first writes result = true, but its users UPDATE
statement reuses placeholder number 1 for both of its two bound
parameters (points and username), so the bind is rejected by the
database and the error propagates out of the loop; the win and the
points are never recorded.  A direction other than OVER or UNDER falls
through the switch without any update. -/
def gradePlayerPick (db : Db) (p : PlayerPick) : Except (Db × DbError) Db :=
  match selectAmount db.gameStats (gradeStatName p) p.playerId p.gameId with
  | .error e => .error (db, e)
  | .ok none => .ok db
  | .ok (some amount) =>
    if p.overUnder = "OVER" then
      if amount > p.value then
        .ok (dbRecordWin (dbSetPlayerPickResult db p.id true) p.pointValue p.username)
      else
        .ok (dbRecordLoss (dbSetPlayerPickResult db p.id false) p.username)
    else if p.overUnder = "UNDER" then
      if amount < p.value then
        .error (dbSetPlayerPickResult db p.id true, .bindMismatch)
      else
        .ok (dbRecordLoss (dbSetPlayerPickResult db p.id false) p.username)
    else .ok db

/-- The loop of Player.updatePicks over the snapshot of eligible picks;
an uncaught statement error aborts the rest of the loop but keeps every
already-committed write (each statement autocommits). -/
def playerGradeLoop : Db → List PlayerPick → Db × Option DbError
  | db, [] => (db, none)
  | db, p :: rest =>
    match gradePlayerPick db p with
    | .ok db' => playerGradeLoop db' rest
    | .error (db', e) => (db', some e)

/-- Player.updatePicks: select all open picks on finished games, then
grade them in order. -/
def Player.updatePicks (db : Db) : Db × Option DbError :=
  playerGradeLoop db (playerPicksWorkingSet db)

/-- One row of the working-set query of Team.updatePicks: an open pick
joined to its finished game contributes the pick together with the
joined winner column. -/
def teamRowFn (db : Db) (p : TeamPick) : Option (TeamPick × Option ℕ) :=
  if p.result == none then
    match gameFor db p.gameId with
    | some g => if g.status == "finished" then some (p, g.winner) else none
    | none => none
  else none

/-- The working set of Team.updatePicks: open team picks joined to
finished games, each row carrying the joined winner column. -/
def teamPicksWorkingSet (db : Db) : List (TeamPick × Option ℕ) :=
  db.teamPicks.filterMap (teamRowFn db)

/-- One iteration of the Team.updatePicks loop: the strict comparison
pick.winner === pick.teamId is false when no winner is recorded, so the
pick is graded either way. -/
def gradeTeamPick (db : Db) (row : TeamPick × Option ℕ) : Db :=
  if row.2 == some row.1.teamId then
    dbRecordWin (dbSetTeamPickResult db row.1.id true) row.1.pointValue row.1.username
  else
    dbRecordLoss (dbSetTeamPickResult db row.1.id false) row.1.username

def teamGradeLoop : Db → List (TeamPick × Option ℕ) → Db
  | db, [] => db
  | db, r :: rest => teamGradeLoop (gradeTeamPick db r) rest

/-- Team.updatePicks: select all open team picks on finished games with
the winner column, then grade them in order. -/
def Team.updatePicks (db : Db) : Db :=
  teamGradeLoop db (teamPicksWorkingSet db)

/-! ## Pick creation (User.playerPick and User.teamPick) -/

/-- Errors surfaced by pick creation. -/
inductive AppError where
  | notFound
  | badRequest
  | uniqueViolation
deriving DecidableEq

/-- The validMethods list of User.playerPick. -/
def validPlayerPickStats : List String :=
  ["points", "fgm", "fga", "ftm", "fta", "tpm", "tpa", "rebounds",
   "assists", "steals", "turnovers", "blocks"]

/-- Modelled from the spec: the player_picks and team_picks table
definitions are absent from the tree (only the queries against them
appear), so the spec invariant that there is at most one pick per
(user, player, game, stat) and at most one team pick per (user, game)
is modelled as a uniqueness check enforced when the INSERT runs. -/
def playerPickInsertConflict (db : Db) (username : String) (playerId gameId : ℕ)
    (stat : String) : Bool :=
  db.playerPicks.any (fun q =>
    q.username == username && q.playerId == playerId && q.gameId == gameId && q.stat == stat)

/-- Modelled from the spec: the team-pick half of the uniqueness
invariant, at most one team pick per (user, game). -/
def teamPickInsertConflict (db : Db) (username : String) (gameId : ℕ) : Bool :=
  db.teamPicks.any (fun q => q.username == username && q.gameId == gameId)

/-- Modelled from the spec: the INSERT into player_picks omits the
point_value column, so the inserted row takes the column default of the
table whose definition is absent from the tree; its value is irrelevant
to every claim here. -/
def pickPointValueDefault : ℚ := 0

/-- ASCII lowercasing of one character, as toLowerCase acts on the
names used here. -/
def lowerChar (c : Char) : Char :=
  if 65 <= c.toNat && c.toNat <= 90 then Char.ofNat (c.toNat + 32) else c

/-- ASCII uppercasing of one character. -/
def upperChar (c : Char) : Char :=
  if 97 <= c.toNat && c.toNat <= 122 then Char.ofNat (c.toNat - 32) else c

/-- The toLowerCase call of the creation code, acting per character. -/
def strLower (s : String) : String := ⟨s.data.map lowerChar⟩

/-- The toUpperCase call of the creation code, acting per character. -/
def strUpper (s : String) : String := ⟨s.data.map upperChar⟩

/-- The row written by the INSERT of User.playerPick: the stat is
stored as given, the direction uppercased, the result open, and the id
drawn from the sequence of the table. -/
def playerPickRow (db : Db) (username : String) (playerId gameId : ℕ)
    (stat over_under : String) (value : ℚ) : PlayerPick where
  id := db.nextPlayerPickId
  username := username
  playerId := playerId
  stat := stat
  overUnder := strUpper over_under
  value := value
  gameId := gameId
  pointValue := pickPointValueDefault
  result := none

/-- The row written by the INSERT of User.teamPick. -/
def teamPickRow (db : Db) (username : String) (teamId gameId : ℕ)
    (win_spread : String) (value : ℚ) : TeamPick where
  id := db.nextTeamPickId
  username := username
  teamId := teamId
  gameId := gameId
  winSpread := strUpper win_spread
  value := value
  pointValue := pickPointValueDefault
  result := none

/-- User.playerPick: after looking up the stat in validMethods
(case-insensitively, the indexOf check) and checking that the user, the
player and the game exist, reject an invalid stat or direction, then
INSERT the pick.  Game.checkValid only selects id, date, location and
the two team columns: the lifecycle status of the game is never
consulted. -/
def User.playerPick (db : Db) (username : String) (playerId gameId : ℕ)
    (stat over_under : String) (value : ℚ) : Except AppError (Db × PlayerPick) :=
  match db.users.find? (fun u => u.username == username) with
  | none => .error .notFound
  | some _ =>
    if db.players.contains playerId then
      match gameFor db gameId with
      | none => .error .notFound
      | some _ =>
        if !(validPlayerPickStats.contains (strLower stat)) then .error .badRequest
        else if strLower over_under != "under" && strLower over_under != "over" then
          .error .badRequest
        else if playerPickInsertConflict db username playerId gameId stat then
          .error .uniqueViolation
        else
          .ok ({ db with
                  playerPicks := db.playerPicks ++
                    [playerPickRow db username playerId gameId stat over_under value],
                  nextPlayerPickId := db.nextPlayerPickId + 1 },
               playerPickRow db username playerId gameId stat over_under value)
    else .error .notFound

/-- User.teamPick: check that the user, the team and the game exist,
reject a win_spread other than win or spread (case-insensitively),
then INSERT the pick.  As for player picks, the status of the game is
never consulted. -/
def User.teamPick (db : Db) (username : String) (teamId gameId : ℕ)
    (win_spread : String) (value : ℚ) : Except AppError (Db × TeamPick) :=
  match db.users.find? (fun u => u.username == username) with
  | none => .error .notFound
  | some _ =>
    if db.teams.contains teamId then
      match gameFor db gameId with
      | none => .error .notFound
      | some _ =>
        if strLower win_spread != "win" && strLower win_spread != "spread" then
          .error .badRequest
        else if teamPickInsertConflict db username gameId then
          .error .uniqueViolation
        else
          .ok ({ db with
                  teamPicks := db.teamPicks ++
                    [teamPickRow db username teamId gameId win_spread value],
                  nextTeamPickId := db.nextTeamPickId + 1 },
               teamPickRow db username teamId gameId win_spread value)
    else .error .notFound

/-- Whether a creation call committed its INSERT. -/
def createdOk {α : Type} : Except AppError α → Bool
  | .ok _ => true
  | .error _ => false

/-! ## Basic lemmas about the state transformations -/

/-- The database state left behind by one grading step, whether the
step committed normally or aborted after its partial writes. -/
def dbAfter : Except (Db × DbError) Db → Db
  | .ok db => db
  | .error r => r.1

@[simp] lemma dbAfter_ok (db : Db) : dbAfter (.ok db) = db := rfl

@[simp] lemma dbAfter_error (r : Db × DbError) : dbAfter (.error r) = r.1 := rfl

@[simp] lemma dbSetPlayerPickResult_playerPicks (db : Db) (i : ℕ) (b : Bool) :
    (dbSetPlayerPickResult db i b).playerPicks = db.playerPicks.map (setPlayerPickResult b i) := rfl

@[simp] lemma dbSetPlayerPickResult_users (db : Db) (i : ℕ) (b : Bool) :
    (dbSetPlayerPickResult db i b).users = db.users := rfl

@[simp] lemma dbSetPlayerPickResult_games (db : Db) (i : ℕ) (b : Bool) :
    (dbSetPlayerPickResult db i b).games = db.games := rfl

@[simp] lemma dbSetPlayerPickResult_gameStats (db : Db) (i : ℕ) (b : Bool) :
    (dbSetPlayerPickResult db i b).gameStats = db.gameStats := rfl

@[simp] lemma dbSetPlayerPickResult_teamPicks (db : Db) (i : ℕ) (b : Bool) :
    (dbSetPlayerPickResult db i b).teamPicks = db.teamPicks := rfl

@[simp] lemma dbSetTeamPickResult_teamPicks (db : Db) (i : ℕ) (b : Bool) :
    (dbSetTeamPickResult db i b).teamPicks = db.teamPicks.map (setTeamPickResult b i) := rfl

@[simp] lemma dbSetTeamPickResult_playerPicks (db : Db) (i : ℕ) (b : Bool) :
    (dbSetTeamPickResult db i b).playerPicks = db.playerPicks := rfl

@[simp] lemma dbSetTeamPickResult_users (db : Db) (i : ℕ) (b : Bool) :
    (dbSetTeamPickResult db i b).users = db.users := rfl

@[simp] lemma dbSetTeamPickResult_games (db : Db) (i : ℕ) (b : Bool) :
    (dbSetTeamPickResult db i b).games = db.games := rfl

@[simp] lemma dbSetTeamPickResult_gameStats (db : Db) (i : ℕ) (b : Bool) :
    (dbSetTeamPickResult db i b).gameStats = db.gameStats := rfl

@[simp] lemma dbRecordWin_playerPicks (db : Db) (pv : ℚ) (u : String) :
    (dbRecordWin db pv u).playerPicks = db.playerPicks := rfl

@[simp] lemma dbRecordWin_teamPicks (db : Db) (pv : ℚ) (u : String) :
    (dbRecordWin db pv u).teamPicks = db.teamPicks := rfl

@[simp] lemma dbRecordWin_games (db : Db) (pv : ℚ) (u : String) :
    (dbRecordWin db pv u).games = db.games := rfl

@[simp] lemma dbRecordWin_gameStats (db : Db) (pv : ℚ) (u : String) :
    (dbRecordWin db pv u).gameStats = db.gameStats := rfl

@[simp] lemma dbRecordLoss_playerPicks (db : Db) (u : String) :
    (dbRecordLoss db u).playerPicks = db.playerPicks := rfl

@[simp] lemma dbRecordLoss_teamPicks (db : Db) (u : String) :
    (dbRecordLoss db u).teamPicks = db.teamPicks := rfl

@[simp] lemma dbRecordLoss_games (db : Db) (u : String) :
    (dbRecordLoss db u).games = db.games := rfl

@[simp] lemma dbRecordLoss_gameStats (db : Db) (u : String) :
    (dbRecordLoss db u).gameStats = db.gameStats := rfl

/-- Every pick carrying a given id has its result set after the
corresponding UPDATE ran over the table. -/
lemma result_of_mem_setPlayerPickResult {l : List PlayerPick} {b : Bool} {i : ℕ}
    {q : PlayerPick} (hq : q ∈ l.map (setPlayerPickResult b i)) (hid : q.id = i) :
    q.result = some b := by
  rcases List.mem_map.mp hq with ⟨q₀, _, rfl⟩
  by_cases h : q₀.id = i
  · simp [setPlayerPickResult, h]
  · simp [setPlayerPickResult, h] at hid

lemma result_of_mem_setTeamPickResult {l : List TeamPick} {b : Bool} {i : ℕ}
    {q : TeamPick} (hq : q ∈ l.map (setTeamPickResult b i)) (hid : q.id = i) :
    q.result = some b := by
  rcases List.mem_map.mp hq with ⟨q₀, _, rfl⟩
  by_cases h : q₀.id = i
  · simp [setTeamPickResult, h]
  · simp [setTeamPickResult, h] at hid

/-- After an operation, every player pick with the given id carries the
given result. -/
def PlayerResultsSetTo (db : Db) (i : ℕ) (b : Bool) : Prop :=
  ∀ q ∈ db.playerPicks, q.id = i → q.result = some b

/-- After an operation, every team pick with the given id carries the
given result. -/
def TeamResultsSetTo (db : Db) (i : ℕ) (b : Bool) : Prop :=
  ∀ q ∈ db.teamPicks, q.id = i → q.result = some b

/-! ## Claims about the stat aggregator (C6, C10) -/

lemma jsOrZero_ne_nan (x : JsNum) : jsOrZero x ≠ JsNum.nan := by
  cases x <;> simp [jsOrZero]

lemma perGameFig_ne_nan (t g : ℚ) : perGameFig t g ≠ JsNum.nan :=
  jsOrZero_ne_nan _

lemma per36Fig_ne_nan (t m : ℚ) : per36Fig t m ≠ JsNum.nan :=
  jsOrZero_ne_nan _

lemma updateSeasonPct_ne_nan (a b : ℚ) : updateSeasonPct a b ≠ JsNum.nan :=
  jsOrZero_ne_nan _

/-- A season row with a positive points total but no recorded
game_stats rows. -/
def c6Row : SeasonRow where
  id := 1
  name := "Tatum, Jayson"
  code := "BOS"
  gp := 0
  minutes := 0
  points := 10
  fgm := 0
  fga := 0
  fgp := 0
  ftm := 0
  fta := 0
  ftp := 0
  tpm := 0
  tpa := 0
  tpp := 0
  offReb := 0
  defReb := 0
  totalReb := 0
  assists := 0
  fouls := 0
  steals := 0
  turnovers := 0
  blocks := 0
  plusMinus := 0

/-- Claim C6 is false as stated: with a games-played count of 0 and a
nonzero points total, the per-game points figure is Infinity, not 0,
because the x || 0 fallback only intercepts the falsy NaN of 0/0 and
keeps the truthy Infinity of 10/0. -/
theorem c6_zero_gp_counterexample :
    (Player.seasonStats c6Row 0).perGame.points = JsNum.posInf ∧
    JsNum.posInf ≠ JsNum.num 0 := by
  exact ⟨rfl, by decide⟩

/-- Claim C6 amended: the guards eliminate NaN and exceptions but not
the infinities.  A figure over a zero denominator is 0 exactly when its
numerator is 0; a positive numerator gives Infinity and a negative one
gives -Infinity; and no per-game, per-36 or percentage figure is ever
NaN. -/
theorem c6_division_guards_amended :
    (∀ t : ℚ, perGameFig t 0 =
      (if t = 0 then JsNum.num 0 else if 0 < t then JsNum.posInf else JsNum.negInf))
  ∧ (∀ t : ℚ, per36Fig t 0 =
      (if t = 0 then JsNum.num 0 else if 0 < t then JsNum.posInf else JsNum.negInf))
  ∧ (∀ m : ℚ, updateSeasonPct m 0 =
      (if m = 0 then JsNum.num 0 else if 0 < m then JsNum.posInf else JsNum.negInf))
  ∧ (∀ t g : ℚ, perGameFig t g ≠ JsNum.nan)
  ∧ (∀ t m : ℚ, per36Fig t m ≠ JsNum.nan)
  ∧ (∀ a b : ℚ, updateSeasonPct a b ≠ JsNum.nan) := by
  refine ⟨?_, ?_, ?_, perGameFig_ne_nan, per36Fig_ne_nan, updateSeasonPct_ne_nan⟩
  · intro t
    by_cases h : t = 0
    · simp [perGameFig, jsDiv, jsOrZero, h]
    · by_cases h2 : 0 < t <;> simp [perGameFig, jsDiv, jsOrZero, h, h2]
  · intro t
    by_cases h : t = 0
    · simp [per36Fig, jsDiv, jsMul, jsOrZero, h]
    · by_cases h2 : 0 < t <;>
        simp [per36Fig, jsDiv, jsMul, jsOrZero, h, h2]
  · intro m
    by_cases h : m = 0
    · simp [updateSeasonPct, jsDiv, jsMul, jsOrZero, h]
    · by_cases h2 : 0 < m <;>
        simp [updateSeasonPct, jsDiv, jsMul, jsOrZero, h, h2]

/-- Claim C10: Player.seasonStats overwrites the stored gp aggregate
with the live count of game_stats rows before any view is built, so the
result is independent of the stored gp, every view reports the live
count as gp, and the per-game denominators use the live count. -/
theorem c10_gp_overridden_by_live_count (row : SeasonRow) (g : ℚ) (n : ℕ) :
    Player.seasonStats { row with gp := g } n = Player.seasonStats row n
  ∧ (Player.seasonStats row n).totals.gp = (n : ℚ)
  ∧ (Player.seasonStats row n).perGame.gp = JsNum.num (n : ℚ)
  ∧ (Player.seasonStats row n).per36.gp = JsNum.num (n : ℚ)
  ∧ (Player.seasonStats row n).perGame.points = perGameFig row.points (n : ℚ)
  ∧ (Player.seasonStats row n).per36.points = per36Fig row.points row.minutes := by
  refine ⟨rfl, rfl, rfl, rfl, rfl, rfl⟩

/-! ## Claims about the pick graders (C1 - C5) -/

/-- The user, game, box score and open UNDER pick on which the winning
branch of the UNDER case is exercised. -/
def c1User : UserRow where
  username := "locksmith"
  wins := 3
  losses := 2
  points := 250

def c1Game : Game where
  id := 1
  status := "finished"
  winner := some 2

def c1Pick : PlayerPick where
  id := 11
  username := "locksmith"
  playerId := 7
  stat := "points"
  overUnder := "UNDER"
  value := 10
  gameId := 1
  pointValue := 100
  result := none

def c1Stat : GameStat where
  playerId := 7
  gameId := 1
  minutes := 30
  points := 5
  fgm := 2
  fga := 8
  fgp := 25
  ftm := 1
  fta := 2
  ftp := 50
  tpm := 0
  tpa := 3
  tpp := 0
  offReb := 1
  defReb := 4
  totalReb := 5
  assists := 2
  fouls := 1
  steals := 0
  turnovers := 2
  blocks := 0
  plusMinus := -3

def c1Db : Db where
  users := [c1User]
  players := [7]
  teams := []
  games := [c1Game]
  gameStats := [c1Stat]
  playerPicks := [c1Pick]
  teamPicks := []
  nextPlayerPickId := 12
  nextTeamPickId := 1

/-- Claim C1 fails on the code: an UNDER player pick that resolves true
(5 points recorded against a threshold of 10) has its result set to
true, but the follow-up users UPDATE reuses placeholder number 1 for
both of its two bound parameters, so the bind is rejected: the grading
pass aborts with that error and the owning user keeps wins 3 and points
250 instead of gaining the win and the 100 reward points. -/
theorem c1_under_win_user_update_fails :
    (Player.updatePicks c1Db).2 = some DbError.bindMismatch
  ∧ (Player.updatePicks c1Db).1.users = [c1User]
  ∧ (Player.updatePicks c1Db).1.playerPicks = [{ c1Pick with result := some true }] := by
  refine ⟨rfl, rfl, rfl⟩

/-- Claim C2: for an open player pick graded against an existing box
score row carrying amount a, the result written back is exactly the
strict comparison: OVER wins iff threshold < a, UNDER wins iff
a < threshold, and an amount equal to the threshold is recorded as a
loss under both directions. -/
theorem c2_player_pick_strict_inequality (db : Db) (p : PlayerPick) (a : ℚ)
    (ha : selectAmount db.gameStats (gradeStatName p) p.playerId p.gameId = .ok (some a)) :
    (p.overUnder = "OVER" →
       PlayerResultsSetTo (dbAfter (gradePlayerPick db p)) p.id (decide (p.value < a)))
  ∧ (p.overUnder = "UNDER" →
       PlayerResultsSetTo (dbAfter (gradePlayerPick db p)) p.id (decide (a < p.value)))
  ∧ (a = p.value → (p.overUnder = "OVER" ∨ p.overUnder = "UNDER") →
       PlayerResultsSetTo (dbAfter (gradePlayerPick db p)) p.id false) := by
  have hover : p.overUnder = "OVER" →
      PlayerResultsSetTo (dbAfter (gradePlayerPick db p)) p.id (decide (p.value < a)) := by
    intro hov
    by_cases hlt : p.value < a
    · simp only [gradePlayerPick, ha, hov, if_pos rfl, gt_iff_lt, if_pos hlt,
        decide_eq_true hlt, dbAfter_ok]
      intro q hq hid
      exact result_of_mem_setPlayerPickResult hq hid
    · simp only [gradePlayerPick, ha, hov, if_pos rfl, gt_iff_lt, if_neg hlt,
        decide_eq_false hlt, dbAfter_ok]
      intro q hq hid
      exact result_of_mem_setPlayerPickResult hq hid
  have hunder : p.overUnder = "UNDER" →
      PlayerResultsSetTo (dbAfter (gradePlayerPick db p)) p.id (decide (a < p.value)) := by
    intro hun
    have hne : ¬ p.overUnder = "OVER" := by simp [hun]
    by_cases hlt : a < p.value
    · simp only [gradePlayerPick, ha, if_neg hne, hun, if_pos rfl, if_pos hlt,
        decide_eq_true hlt, dbAfter_error]
      intro q hq hid
      exact result_of_mem_setPlayerPickResult hq hid
    · simp only [gradePlayerPick, ha, if_neg hne, hun, if_pos rfl, if_neg hlt,
        decide_eq_false hlt, dbAfter_ok]
      intro q hq hid
      exact result_of_mem_setPlayerPickResult hq hid
  refine ⟨hover, hunder, ?_⟩
  intro heq hdir
  rcases hdir with hov | hun
  · have h := hover hov
    rw [heq] at h
    simpa using h
  · have h := hunder hun
    rw [heq] at h
    simpa using h

def c2Pick : PlayerPick where
  id := 21
  username := "locksmith"
  playerId := 7
  stat := "points"
  overUnder := "OVER"
  value := 19
  gameId := 1
  pointValue := 100
  result := none

def c2Stat : GameStat where
  playerId := 7
  gameId := 1
  minutes := 35
  points := 20
  fgm := 8
  fga := 15
  fgp := 53
  ftm := 2
  fta := 2
  ftp := 100
  tpm := 2
  tpa := 6
  tpp := 33
  offReb := 1
  defReb := 7
  totalReb := 8
  assists := 5
  fouls := 2
  steals := 1
  turnovers := 3
  blocks := 1
  plusMinus := 12

def c2Db : Db where
  users := [c1User]
  players := [7]
  teams := []
  games := [c1Game]
  gameStats := [c2Stat]
  playerPicks := [c2Pick]
  teamPicks := []
  nextPlayerPickId := 22
  nextTeamPickId := 1

theorem c2_player_pick_strict_inequality_witness :
    PlayerResultsSetTo (dbAfter (gradePlayerPick c2Db c2Pick)) c2Pick.id true := by
  have h := (c2_player_pick_strict_inequality c2Db c2Pick 20 rfl).1 rfl
  have hb : decide (c2Pick.value < (20 : ℚ)) = true := rfl
  rw [hb] at h
  exact h

/-- Claim C4: a player pick on a finished game with no box-score row
for its (player, game) pair is skipped: the step commits no write at
all (result stays null, user tallies untouched) and the loop proceeds
to the remaining picks of the same pass. -/
theorem c4_missing_box_score_skipped (db : Db) (p : PlayerPick)
    (hnone : selectAmount db.gameStats (gradeStatName p) p.playerId p.gameId = .ok none) :
    gradePlayerPick db p = .ok db
  ∧ ∀ rest, playerGradeLoop db (p :: rest) = playerGradeLoop db rest := by
  have h1 : gradePlayerPick db p = .ok db := by
    simp only [gradePlayerPick, hnone]
  exact ⟨h1, fun rest => by simp only [playerGradeLoop, h1]⟩

def c4Pick : PlayerPick where
  id := 41
  username := "locksmith"
  playerId := 9
  stat := "rebounds"
  overUnder := "OVER"
  value := 7
  gameId := 1
  pointValue := 100
  result := none

def c4Db : Db where
  users := [c1User]
  players := [9]
  teams := []
  games := [c1Game]
  gameStats := []
  playerPicks := [c4Pick]
  teamPicks := []
  nextPlayerPickId := 42
  nextTeamPickId := 1

theorem c4_missing_box_score_skipped_witness :
    gradePlayerPick c4Db c4Pick = .ok c4Db
  ∧ playerGradeLoop c4Db [c4Pick] = playerGradeLoop c4Db [] := by
  have h := c4_missing_box_score_skipped c4Db c4Pick rfl
  exact ⟨h.1, h.2 []⟩

/-! ## Lemmas about the team-pick grader, and claim C3 -/

@[simp] lemma setTeamPickResult_id (b : Bool) (i : ℕ) (p : TeamPick) :
    (setTeamPickResult b i p).id = p.id := by
  unfold setTeamPickResult; split <;> rfl

@[simp] lemma setPlayerPickResult_id (b : Bool) (i : ℕ) (p : PlayerPick) :
    (setPlayerPickResult b i p).id = p.id := by
  unfold setPlayerPickResult; split <;> rfl

lemma setTeamPickResult_of_ne {i : ℕ} {p : TeamPick} (h : p.id ≠ i) (b : Bool) :
    setTeamPickResult b i p = p := by
  unfold setTeamPickResult
  rw [if_neg (by simpa using h)]

/-- Grading one working-set row rewrites the team_picks table by the
single UPDATE with the boolean outcome of the winner comparison. -/
lemma gradeTeamPick_teamPicks (db : Db) (r : TeamPick × Option ℕ) :
    (gradeTeamPick db r).teamPicks =
      db.teamPicks.map (setTeamPickResult (r.2 == some r.1.teamId) r.1.id) := by
  cases hb : (r.2 == some r.1.teamId) <;> simp [gradeTeamPick, hb]

lemma gradeTeamPick_games (db : Db) (r : TeamPick × Option ℕ) :
    (gradeTeamPick db r).games = db.games := by
  cases hb : (r.2 == some r.1.teamId) <;> simp [gradeTeamPick, hb]

lemma gradeTeamPick_gameStats (db : Db) (r : TeamPick × Option ℕ) :
    (gradeTeamPick db r).gameStats = db.gameStats := by
  cases hb : (r.2 == some r.1.teamId) <;> simp [gradeTeamPick, hb]

lemma teamGradeLoop_append (l₁ l₂ : List (TeamPick × Option ℕ)) : ∀ db : Db,
    teamGradeLoop db (l₁ ++ l₂) = teamGradeLoop (teamGradeLoop db l₁) l₂ := by
  induction l₁ with
  | nil => intro db; rfl
  | cons r l ih => intro db; exact ih (gradeTeamPick db r)

lemma teamGradeLoop_games (l : List (TeamPick × Option ℕ)) : ∀ db : Db,
    (teamGradeLoop db l).games = db.games := by
  induction l with
  | nil => intro db; rfl
  | cons r l ih => intro db; rw [teamGradeLoop, ih, gradeTeamPick_games]

/-- Grading the row of a pick marks every pick carrying its id with the
outcome of the winner comparison. -/
lemma teamResultsSetTo_of_grade (db : Db) (r : TeamPick × Option ℕ) :
    TeamResultsSetTo (gradeTeamPick db r) r.1.id (r.2 == some r.1.teamId) := by
  intro q hq hid
  rw [gradeTeamPick_teamPicks] at hq
  exact result_of_mem_setTeamPickResult hq hid

/-- Grading a row with a different pick id does not disturb results
already set for a given id. -/
lemma teamResultsSetTo_grade_of_ne {db : Db} {r : TeamPick × Option ℕ} {i : ℕ} {b : Bool}
    (hne : r.1.id ≠ i) (h : TeamResultsSetTo db i b) :
    TeamResultsSetTo (gradeTeamPick db r) i b := by
  intro q hq hid
  rw [gradeTeamPick_teamPicks] at hq
  rcases List.mem_map.mp hq with ⟨q₀, hq₀, rfl⟩
  by_cases hc : q₀.id = r.1.id
  · rw [setTeamPickResult_id] at hid
    exact absurd (hid ▸ hc.symm ▸ rfl : r.1.id = i) hne
  · rw [setTeamPickResult_of_ne hc] at hid ⊢
    exact h q₀ hq₀ hid

lemma teamResultsSetTo_loop {i : ℕ} {b : Bool} :
    ∀ (l : List (TeamPick × Option ℕ)), (∀ r ∈ l, r.1.id ≠ i) → ∀ db : Db,
      TeamResultsSetTo db i b → TeamResultsSetTo (teamGradeLoop db l) i b := by
  intro l
  induction l with
  | nil => intro _ db h; exact h
  | cons r l ih =>
    intro hne db h
    rw [teamGradeLoop]
    exact ih (fun r' hr' => hne r' (List.mem_cons_of_mem _ hr'))
      _ (teamResultsSetTo_grade_of_ne (hne r (List.mem_cons_self _ _)) h)

/-- An open pick on a finished game contributes its row to the working
set. -/
lemma mem_teamPicksWorkingSet {db : Db} {p : TeamPick} {g : Game}
    (hp : p ∈ db.teamPicks) (hopen : p.result = none)
    (hg : gameFor db p.gameId = some g) (hfin : g.status = "finished") :
    (p, g.winner) ∈ teamPicksWorkingSet db := by
  refine List.mem_filterMap.mpr ⟨p, hp, ?_⟩
  simp [teamRowFn, hopen, hg, hfin]

/-- A produced working-set row carries the pick it came from. -/
lemma teamRowFn_fst {db : Db} {p : TeamPick} {r : TeamPick × Option ℕ}
    (h : teamRowFn db p = some r) : r.1 = p := by
  unfold teamRowFn at h
  split at h
  · split at h
    · split at h
      · injection h with h2; rw [← h2]
      · cases h
    · cases h
  · cases h

/-- A produced working-set row comes from an open pick whose game is
finished, and carries that game and its winner. -/
lemma teamRowFn_inv {db : Db} {p : TeamPick} {r : TeamPick × Option ℕ}
    (h : teamRowFn db p = some r) :
    p.result = none ∧ ∃ g, gameFor db p.gameId = some g ∧ g.status = "finished" ∧
      r = (p, g.winner) := by
  unfold teamRowFn at h
  split at h
  · rename_i hcond
    refine ⟨by simpa using hcond, ?_⟩
    split at h
    · rename_i g hg
      split at h
      · rename_i hfin
        exact ⟨g, hg, by simpa using hfin, by injection h with h2; rw [h2]⟩
      · cases h
    · cases h
  · cases h

/-- The ids of the working-set rows form a sublist of the table ids, so
uniqueness of pick ids carries over to the working set. -/
lemma teamWorkingSet_ids_sublist (db : Db) : ∀ l : List TeamPick,
    List.Sublist ((l.filterMap (teamRowFn db)).map (fun r => r.1.id))
      (l.map TeamPick.id) := by
  intro l
  induction l with
  | nil => simp
  | cons p l ih =>
    cases hf : teamRowFn db p with
    | none =>
      rw [List.filterMap_cons_none hf, List.map_cons]
      exact ih.cons _
    | some r =>
      rw [List.filterMap_cons_some hf, List.map_cons, List.map_cons,
        teamRowFn_fst hf]
      exact ih.cons₂ _

/-- Claim C3: in one Team.updatePicks pass, every open team pick on a
finished game with a recorded winner is graded: all picks carrying its
id end with result true exactly when the winner equals the target team
and false otherwise, and none of them remains open. -/
theorem c3_team_pick_graded (db : Db)
    (hids : (db.teamPicks.map TeamPick.id).Nodup)
    (p : TeamPick) (hp : p ∈ db.teamPicks) (hopen : p.result = none)
    (g : Game) (hg : gameFor db p.gameId = some g) (hfin : g.status = "finished")
    (w : ℕ) (hw : g.winner = some w) :
    TeamResultsSetTo (Team.updatePicks db) p.id (w == p.teamId)
  ∧ ∀ q ∈ (Team.updatePicks db).teamPicks, q.id = p.id → q.result ≠ none := by
  have hrow : (p, some w) ∈ teamPicksWorkingSet db := by
    have h := mem_teamPicksWorkingSet hp hopen hg hfin
    rwa [hw] at h
  have hnodupWS : ((teamPicksWorkingSet db).map (fun r => r.1.id)).Nodup :=
    (teamWorkingSet_ids_sublist db db.teamPicks).nodup hids
  obtain ⟨l₁, l₂, hsplit⟩ := List.append_of_mem hrow
  have hids2 := hnodupWS
  rw [hsplit, List.map_append, List.map_cons] at hids2
  rcases List.nodup_append.mp hids2 with ⟨_, hB, hdisj⟩
  have hne₁ : ∀ r ∈ l₁, r.1.id ≠ p.id := by
    intro r hr heq
    exact hdisj (heq ▸ List.mem_map_of_mem _ hr) (List.mem_cons_self _ _)
  have hne₂ : ∀ r ∈ l₂, r.1.id ≠ p.id := by
    intro r hr heq
    exact (List.nodup_cons.mp hB).1 (heq ▸ List.mem_map_of_mem _ hr)
  have hmain : TeamResultsSetTo (Team.updatePicks db) p.id ((some w : Option ℕ) == some p.teamId) := by
    unfold Team.updatePicks
    rw [hsplit, teamGradeLoop_append, teamGradeLoop]
    exact teamResultsSetTo_loop l₂ hne₂ _ (teamResultsSetTo_of_grade _ _)
  have hb : ((some w : Option ℕ) == some p.teamId) = (w == p.teamId) := rfl
  rw [hb] at hmain
  refine ⟨hmain, ?_⟩
  intro q hq hid
  rw [hmain q hq hid]
  simp

def c3Pick : TeamPick where
  id := 31
  username := "locksmith"
  teamId := 2
  gameId := 1
  winSpread := "WIN"
  value := 10
  pointValue := 100
  result := none

def c3Db : Db where
  users := [c1User]
  players := []
  teams := [1, 2]
  games := [c1Game]
  gameStats := []
  playerPicks := []
  teamPicks := [c3Pick]
  nextPlayerPickId := 1
  nextTeamPickId := 32

theorem c3_team_pick_graded_witness :
    TeamResultsSetTo (Team.updatePicks c3Db) c3Pick.id true := by
  have h := (c3_team_pick_graded c3Db (by decide) c3Pick (List.mem_cons_self _ _)
    rfl c1Game rfl rfl 2 rfl).1
  have hb : ((2 : ℕ) == c3Pick.teamId) = true := rfl
  rw [hb] at h
  exact h

/-! ## Idempotence of the graders (claim C5)

Both graders only modify pick rows by setting a result, so the final
table is always a map of the original one under a function that at most
turns an open result into a settled one.  That shape drives the proof
that a second pass over unchanged game data finds nothing to do. -/

/-- A table rewrite that at most settles results: each row is either
kept or has its result overwritten with a settled value. -/
def PPickResUpdate (f : PlayerPick → PlayerPick) : Prop :=
  ∀ p, f p = p ∨ ∃ b, f p = { p with result := some b }

def TPickResUpdate (f : TeamPick → TeamPick) : Prop :=
  ∀ p, f p = p ∨ ∃ b, f p = { p with result := some b }

lemma ppickResUpdate_id : PPickResUpdate id := fun _ => Or.inl rfl

lemma ppickResUpdate_set (b : Bool) (i : ℕ) : PPickResUpdate (setPlayerPickResult b i) := by
  intro p
  unfold setPlayerPickResult
  by_cases h : p.id == i
  · exact Or.inr ⟨b, by rw [if_pos h]⟩
  · exact Or.inl (by rw [if_neg h])

lemma ppickResUpdate_comp {f g : PlayerPick → PlayerPick}
    (hf : PPickResUpdate f) (hg : PPickResUpdate g) : PPickResUpdate (g ∘ f) := by
  intro p
  rcases hf p with h1 | ⟨b, h1⟩
  · rcases hg p with h2 | ⟨b, h2⟩
    · exact Or.inl (by simp [Function.comp, h1, h2])
    · exact Or.inr ⟨b, by simp [Function.comp, h1, h2]⟩
  · rcases hg { p with result := some b } with h2 | ⟨b', h2⟩
    · exact Or.inr ⟨b, by simp [Function.comp, h1, h2]⟩
    · exact Or.inr ⟨b', by simp [Function.comp, h1, h2]⟩

lemma tpickResUpdate_id : TPickResUpdate id := fun _ => Or.inl rfl

lemma tpickResUpdate_set (b : Bool) (i : ℕ) : TPickResUpdate (setTeamPickResult b i) := by
  intro p
  unfold setTeamPickResult
  by_cases h : p.id == i
  · exact Or.inr ⟨b, by rw [if_pos h]⟩
  · exact Or.inl (by rw [if_neg h])

lemma tpickResUpdate_comp {f g : TeamPick → TeamPick}
    (hf : TPickResUpdate f) (hg : TPickResUpdate g) : TPickResUpdate (g ∘ f) := by
  intro p
  rcases hf p with h1 | ⟨b, h1⟩
  · rcases hg p with h2 | ⟨b, h2⟩
    · exact Or.inl (by simp [Function.comp, h1, h2])
    · exact Or.inr ⟨b, by simp [Function.comp, h1, h2]⟩
  · rcases hg { p with result := some b } with h2 | ⟨b', h2⟩
    · exact Or.inr ⟨b, by simp [Function.comp, h1, h2]⟩
    · exact Or.inr ⟨b', by simp [Function.comp, h1, h2]⟩

/-- One player grading step preserves games and box scores, and
rewrites the pick table by a result-settling map, whether it commits or
aborts. -/
lemma gradePlayerPick_shape (db : Db) (p : PlayerPick) :
    (dbAfter (gradePlayerPick db p)).games = db.games ∧
    (dbAfter (gradePlayerPick db p)).gameStats = db.gameStats ∧
    ∃ f, PPickResUpdate f ∧
      (dbAfter (gradePlayerPick db p)).playerPicks = db.playerPicks.map f := by
  unfold gradePlayerPick
  split
  · exact ⟨rfl, rfl, id, ppickResUpdate_id, (List.map_id _).symm⟩
  · exact ⟨rfl, rfl, id, ppickResUpdate_id, (List.map_id _).symm⟩
  · split
    · split
      · exact ⟨rfl, rfl, _, ppickResUpdate_set true p.id, rfl⟩
      · exact ⟨rfl, rfl, _, ppickResUpdate_set false p.id, rfl⟩
    · split
      · split
        · exact ⟨rfl, rfl, _, ppickResUpdate_set true p.id, rfl⟩
        · exact ⟨rfl, rfl, _, ppickResUpdate_set false p.id, rfl⟩
      · exact ⟨rfl, rfl, id, ppickResUpdate_id, (List.map_id _).symm⟩

/-- The whole player grading pass preserves games and box scores and
rewrites the pick table by a result-settling map, also when it aborts
partway. -/
lemma playerGradeLoop_shape (l : List PlayerPick) : ∀ db : Db,
    (playerGradeLoop db l).1.games = db.games ∧
    (playerGradeLoop db l).1.gameStats = db.gameStats ∧
    ∃ f, PPickResUpdate f ∧
      (playerGradeLoop db l).1.playerPicks = db.playerPicks.map f := by
  induction l with
  | nil => intro db; exact ⟨rfl, rfl, id, ppickResUpdate_id, (List.map_id _).symm⟩
  | cons p rest ih =>
    intro db
    have hstep := gradePlayerPick_shape db p
    cases hs : gradePlayerPick db p with
    | ok db' =>
      rw [hs] at hstep
      simp only [dbAfter_ok] at hstep
      rcases hstep with ⟨hg, hgs, f, hf, hmap⟩
      rcases ih db' with ⟨hg', hgs', f', hf', hmap'⟩
      refine ⟨?_, ?_, f' ∘ f, ppickResUpdate_comp hf hf', ?_⟩
      · rw [show playerGradeLoop db (p :: rest) = playerGradeLoop db' rest from by
          rw [playerGradeLoop, hs], hg', hg]
      · rw [show playerGradeLoop db (p :: rest) = playerGradeLoop db' rest from by
          rw [playerGradeLoop, hs], hgs', hgs]
      · rw [show playerGradeLoop db (p :: rest) = playerGradeLoop db' rest from by
          rw [playerGradeLoop, hs], hmap', hmap, List.map_map]
    | error r =>
      rw [hs] at hstep
      simp only [dbAfter_error] at hstep
      rw [show playerGradeLoop db (p :: rest) = (r.1, some r.2) from by
        rw [playerGradeLoop, hs]]
      exact hstep

/-- A result-settling rewrite of the table cannot reopen a settled
id. -/
lemma notOpen_map {picks : List PlayerPick} {f : PlayerPick → PlayerPick}
    (hf : PPickResUpdate f) {i : ℕ}
    (h : ∀ q ∈ picks, q.id = i → q.result ≠ none) :
    ∀ q ∈ picks.map f, q.id = i → q.result ≠ none := by
  intro q hq hid
  rcases List.mem_map.mp hq with ⟨q₀, hq₀, rfl⟩
  rcases hf q₀ with hcase | ⟨b, hcase⟩
  · rw [hcase] at hid ⊢
    exact h q₀ hq₀ hid
  · rw [hcase]
    simp

lemma tnotOpen_map {picks : List TeamPick} {f : TeamPick → TeamPick}
    (hf : TPickResUpdate f) {i : ℕ}
    (h : ∀ q ∈ picks, q.id = i → q.result ≠ none) :
    ∀ q ∈ picks.map f, q.id = i → q.result ≠ none := by
  intro q hq hid
  rcases List.mem_map.mp hq with ⟨q₀, hq₀, rfl⟩
  rcases hf q₀ with hcase | ⟨b, hcase⟩
  · rw [hcase] at hid ⊢
    exact h q₀ hq₀ hid
  · rw [hcase]
    simp

/-- A pass that finished without an error never hit an unknown stat
column on any pick of its working list. -/
lemma playerGradeLoop_no_column_error (l : List PlayerPick) : ∀ db : Db,
    (playerGradeLoop db l).2 = none → ∀ p ∈ l, ∀ e,
      selectAmount db.gameStats (gradeStatName p) p.playerId p.gameId ≠ .error e := by
  induction l with
  | nil => intro db _ p hp; cases hp
  | cons p₀ rest ih =>
    intro db hok p hp e hsel
    cases hs : gradePlayerPick db p₀ with
    | error r =>
      rw [show playerGradeLoop db (p₀ :: rest) = (r.1, some r.2) from by
        rw [playerGradeLoop, hs]] at hok
      cases hok
    | ok db' =>
      rw [show playerGradeLoop db (p₀ :: rest) = playerGradeLoop db' rest from by
        rw [playerGradeLoop, hs]] at hok
      rcases List.mem_cons.mp hp with rfl | hp'
      · rw [show gradePlayerPick db p = .error (db, e) from by
          unfold gradePlayerPick; rw [hsel]] at hs
        cases hs
      · have hgs : db'.gameStats = db.gameStats := by
          have hstep := gradePlayerPick_shape db p₀
          rw [hs] at hstep
          exact hstep.2.1
        exact ih db' hok p hp' e (by rwa [hgs])

/-- In a pass that finished without an error, every pick of its working
list whose box score exists and whose direction is OVER or UNDER ends
the pass settled: no pick carrying its id is left open. -/
lemma playerGradeLoop_grades (l : List PlayerPick) : ∀ db : Db,
    (playerGradeLoop db l).2 = none → ∀ p ∈ l, ∀ a : ℚ,
      selectAmount db.gameStats (gradeStatName p) p.playerId p.gameId = .ok (some a) →
      (p.overUnder = "OVER" ∨ p.overUnder = "UNDER") →
      ∀ q ∈ (playerGradeLoop db l).1.playerPicks, q.id = p.id → q.result ≠ none := by
  induction l with
  | nil => intro db _ p hp; cases hp
  | cons p₀ rest ih =>
    intro db hok p hp a hsel hdir
    cases hs : gradePlayerPick db p₀ with
    | error r =>
      rw [show playerGradeLoop db (p₀ :: rest) = (r.1, some r.2) from by
        rw [playerGradeLoop, hs]] at hok
      cases hok
    | ok db' =>
      have hrw : playerGradeLoop db (p₀ :: rest) = playerGradeLoop db' rest := by
        rw [playerGradeLoop, hs]
      rw [hrw] at hok
      have hstep := gradePlayerPick_shape db p₀
      rw [hs] at hstep
      simp only [dbAfter_ok] at hstep
      rw [hrw]
      rcases List.mem_cons.mp hp with rfl | hp'
      · -- the head pick itself got graded in this very step
        have hset : ∀ q ∈ db'.playerPicks, q.id = p.id → q.result ≠ none := by
          rcases hdir with hov | hun
          · rw [show gradePlayerPick db p =
                (if p.value < a then
                  .ok (dbRecordWin (dbSetPlayerPickResult db p.id true) p.pointValue p.username)
                else
                  .ok (dbRecordLoss (dbSetPlayerPickResult db p.id false) p.username)) from by
              simp only [gradePlayerPick, hsel]; rw [if_pos hov]] at hs
            split at hs
            · cases hs
              intro q hq hid
              rw [result_of_mem_setPlayerPickResult hq hid]
              simp
            · cases hs
              intro q hq hid
              rw [result_of_mem_setPlayerPickResult hq hid]
              simp
          · have hnov : ¬ p.overUnder = "OVER" := by simp [hun]
            rw [show gradePlayerPick db p =
                (if a < p.value then
                  .error (dbSetPlayerPickResult db p.id true, DbError.bindMismatch)
                else
                  .ok (dbRecordLoss (dbSetPlayerPickResult db p.id false) p.username)) from by
              simp only [gradePlayerPick, hsel]; rw [if_neg hnov, if_pos hun]] at hs
            split at hs
            · cases hs
            · cases hs
              intro q hq hid
              rw [result_of_mem_setPlayerPickResult hq hid]
              simp
        rcases playerGradeLoop_shape rest db' with ⟨_, _, f, hf, hmap⟩
        rw [hmap]
        exact notOpen_map hf hset
      · exact ih db' hok p hp' a (by rwa [hstep.2.1]) hdir

/-- A pass whose working list grades every pick as a no-op commits
nothing and reports no error. -/
lemma playerGradeLoop_of_inert (l : List PlayerPick) (db : Db)
    (h : ∀ p ∈ l, gradePlayerPick db p = .ok db) :
    playerGradeLoop db l = (db, none) := by
  induction l with
  | nil => rfl
  | cons p rest ih =>
    rw [playerGradeLoop, h p (List.mem_cons_self _ _)]
    exact ih (fun q hq => h q (List.mem_cons_of_mem _ hq))

lemma teamGradeLoop_of_inert (l : List (TeamPick × Option ℕ)) (db : Db)
    (h : l = []) : teamGradeLoop db l = db := by
  rw [h]; rfl

lemma finishedGame_congr {db₁ db₂ : Db} (h : db₁.games = db₂.games) (gid : ℕ) :
    finishedGame db₁ gid = finishedGame db₂ gid := by
  unfold finishedGame gameFor
  rw [h]

/-- The team grading pass rewrites the pick table by a result-settling
map and preserves the games table. -/
lemma teamGradeLoop_shape (l : List (TeamPick × Option ℕ)) : ∀ db : Db,
    ∃ f, TPickResUpdate f ∧ (teamGradeLoop db l).teamPicks = db.teamPicks.map f := by
  induction l with
  | nil => intro db; exact ⟨id, tpickResUpdate_id, (List.map_id _).symm⟩
  | cons r rest ih =>
    intro db
    rcases ih (gradeTeamPick db r) with ⟨f, hf, hmap⟩
    refine ⟨f ∘ setTeamPickResult (r.2 == some r.1.teamId) r.1.id,
      tpickResUpdate_comp (tpickResUpdate_set _ _) hf, ?_⟩
    rw [teamGradeLoop, hmap, gradeTeamPick_teamPicks, List.map_map]

/-- Every row of the working list ends the team pass settled. -/
lemma teamGradeLoop_notOpen (l : List (TeamPick × Option ℕ)) : ∀ db : Db, ∀ r ∈ l,
    ∀ q ∈ (teamGradeLoop db l).teamPicks, q.id = r.1.id → q.result ≠ none := by
  induction l with
  | nil => intro db r hr; cases hr
  | cons r₀ rest ih =>
    intro db r hr
    rcases List.mem_cons.mp hr with rfl | hr'
    · rw [teamGradeLoop]
      have hset : ∀ q ∈ (gradeTeamPick db r).teamPicks, q.id = r.1.id → q.result ≠ none := by
        intro q hq hid
        rw [teamResultsSetTo_of_grade db r q hq hid]
        simp
      rcases teamGradeLoop_shape rest (gradeTeamPick db r) with ⟨f, hf, hmap⟩
      rw [hmap]
      exact tnotOpen_map hf hset
    · exact ih (gradeTeamPick db r₀) r hr'

/-- Claim C5: grading is idempotent.  A player pass that completed
without error leaves nothing for a second pass over unchanged game data
(every result and every user tally is exactly as the first pass left
it), and a second team pass after any first team pass changes nothing. -/
theorem c5_grading_idempotent :
    (∀ db final : Db, Player.updatePicks db = (final, none) →
        Player.updatePicks final = (final, none))
  ∧ (∀ db : Db, Team.updatePicks (Team.updatePicks db) = Team.updatePicks db) := by
  constructor
  · intro db final h
    have h1 : (playerGradeLoop db (playerPicksWorkingSet db)).1 = final := by
      rw [show playerGradeLoop db (playerPicksWorkingSet db) = Player.updatePicks db from rfl, h]
    have h2 : (playerGradeLoop db (playerPicksWorkingSet db)).2 = none := by
      rw [show playerGradeLoop db (playerPicksWorkingSet db) = Player.updatePicks db from rfl, h]
    have hshape := playerGradeLoop_shape (playerPicksWorkingSet db) db
    rw [h1] at hshape
    rcases hshape with ⟨hgames, hgs, f, hf, hmap⟩
    have hinert : ∀ p ∈ playerPicksWorkingSet final, gradePlayerPick final p = .ok final := by
      intro p hpmem
      have hmem := List.mem_filter.mp hpmem
      rcases hmem with ⟨hpick, hcond⟩
      have hopen : p.result = none := by
        rcases Bool.and_eq_true_iff.mp hcond with ⟨hr, _⟩
        simpa using hr
      have hfin : finishedGame final p.gameId = true := (Bool.and_eq_true_iff.mp hcond).2
      have hporig : p ∈ db.playerPicks := by
        rw [hmap] at hpick
        rcases List.mem_map.mp hpick with ⟨q₀, hq₀, hfq⟩
        rcases hf q₀ with hcase | ⟨b, hcase⟩
        · rw [hcase] at hfq
          rwa [← hfq]
        · rw [hcase] at hfq
          rw [← hfq] at hopen
          cases hopen
      have hws : p ∈ playerPicksWorkingSet db := by
        refine List.mem_filter.mpr ⟨hporig, ?_⟩
        rw [Bool.and_eq_true_iff]
        refine ⟨by simp [hopen], ?_⟩
        rwa [finishedGame_congr hgames.symm]
      cases hsel : selectAmount final.gameStats (gradeStatName p) p.playerId p.gameId with
      | error e =>
        rw [hgs] at hsel
        exact absurd hsel (playerGradeLoop_no_column_error _ db h2 p hws e)
      | ok o =>
        cases o with
        | none =>
          unfold gradePlayerPick
          rw [hsel]
        | some a =>
          by_cases hov : p.overUnder = "OVER"
          · exfalso
            have hng := playerGradeLoop_grades (playerPicksWorkingSet db) db h2 p hws a
              (by rwa [hgs] at hsel) (Or.inl hov)
            rw [h1] at hng
            exact hng p hpick rfl hopen
          · by_cases hun : p.overUnder = "UNDER"
            · exfalso
              have hng := playerGradeLoop_grades (playerPicksWorkingSet db) db h2 p hws a
                (by rwa [hgs] at hsel) (Or.inr hun)
              rw [h1] at hng
              exact hng p hpick rfl hopen
            · simp only [gradePlayerPick, hsel]
              rw [if_neg hov, if_neg hun]
    exact playerGradeLoop_of_inert _ final hinert
  · intro db
    have hgames : (Team.updatePicks db).games = db.games :=
      teamGradeLoop_games _ db
    have hws : teamPicksWorkingSet (Team.updatePicks db) = [] := by
      rw [List.eq_nil_iff_forall_not_mem]
      intro r hr
      rcases List.mem_filterMap.mp hr with ⟨q, hq, hfq⟩
      rcases teamRowFn_inv hfq with ⟨hopen, g, hg, hfin, _⟩
      have hqorig : q ∈ db.teamPicks := by
        rcases teamGradeLoop_shape (teamPicksWorkingSet db) db with ⟨f, hf, hmap⟩
        rw [show Team.updatePicks db = teamGradeLoop db (teamPicksWorkingSet db) from rfl,
          hmap] at hq
        rcases List.mem_map.mp hq with ⟨q₀, hq₀, hfq'⟩
        rcases hf q₀ with hcase | ⟨b, hcase⟩
        · rw [hcase] at hfq'
          rwa [← hfq']
        · rw [hcase] at hfq'
          rw [← hfq'] at hopen
          cases hopen
      have hgdb : gameFor db q.gameId = some g := by
        unfold gameFor at hg ⊢
        rwa [hgames] at hg
      have hrow : (q, g.winner) ∈ teamPicksWorkingSet db :=
        mem_teamPicksWorkingSet hqorig hopen hgdb hfin
      have := teamGradeLoop_notOpen (teamPicksWorkingSet db) db (q, g.winner) hrow q hq rfl
      exact this hopen
    rw [show Team.updatePicks (Team.updatePicks db) =
      teamGradeLoop (Team.updatePicks db) (teamPicksWorkingSet (Team.updatePicks db)) from rfl,
      hws]
    rfl

def c5Pick : PlayerPick where
  id := 51
  username := "locksmith"
  playerId := 9
  stat := "assists"
  overUnder := "OVER"
  value := 4
  gameId := 1
  pointValue := 100
  result := none

def c5Db : Db where
  users := [c1User]
  players := [9]
  teams := []
  games := [c1Game]
  gameStats := []
  playerPicks := [c5Pick]
  teamPicks := []
  nextPlayerPickId := 52
  nextTeamPickId := 1

theorem c5_grading_idempotent_witness :
    Player.updatePicks c5Db = (c5Db, none) ∧ Player.updatePicks c5Db = (c5Db, none) :=
  ⟨rfl, c5_grading_idempotent.1 c5Db c5Db rfl⟩

/-! ## Claims about pick creation (C7 - C9) -/

/-- When every validation that the code actually performs passes, the
INSERT commits and returns exactly the new row; nothing in the chain
reads the status of the game. -/
lemma playerPick_insert_ok {db : Db} {username : String} {playerId gameId : ℕ}
    {stat ou : String} {v : ℚ} {u : UserRow} {g : Game}
    (hu : db.users.find? (fun x => x.username == username) = some u)
    (hpl : db.players.contains playerId = true)
    (hg : gameFor db gameId = some g)
    (hst : validPlayerPickStats.contains (strLower stat) = true)
    (hou : strLower ou = "over" ∨ strLower ou = "under")
    (hconf : playerPickInsertConflict db username playerId gameId stat = false) :
    User.playerPick db username playerId gameId stat ou v =
      .ok ({ db with
              playerPicks := db.playerPicks ++ [playerPickRow db username playerId gameId stat ou v],
              nextPlayerPickId := db.nextPlayerPickId + 1 },
           playerPickRow db username playerId gameId stat ou v) := by
  have hdir : (strLower ou != "under" && strLower ou != "over") = false := by
    rcases hou with h | h <;> simp [h]
  have hmem : strLower stat ∈ validPlayerPickStats := by simpa using hst
  simp only [User.playerPick, hu, hg]
  rw [if_pos hpl, if_neg (by simp [hmem]), if_neg (by simp [hdir]),
    if_neg (by simp [hconf])]

lemma teamPick_insert_ok {db : Db} {username : String} {teamId gameId : ℕ}
    {ws : String} {v : ℚ} {u : UserRow} {g : Game}
    (hu : db.users.find? (fun x => x.username == username) = some u)
    (htm : db.teams.contains teamId = true)
    (hg : gameFor db gameId = some g)
    (hws : strLower ws = "win" ∨ strLower ws = "spread")
    (hconf : teamPickInsertConflict db username gameId = false) :
    User.teamPick db username teamId gameId ws v =
      .ok ({ db with
              teamPicks := db.teamPicks ++ [teamPickRow db username teamId gameId ws v],
              nextTeamPickId := db.nextTeamPickId + 1 },
           teamPickRow db username teamId gameId ws v) := by
  have hdir : (strLower ws != "win" && strLower ws != "spread") = false := by
    rcases hws with h | h <;> simp [h]
  simp only [User.teamPick, hu, hg]
  rw [if_pos htm, if_neg (by simp [hdir]), if_neg (by simp [hconf])]

def c7Game : Game where
  id := 1
  status := "finished"
  winner := some 2

def c7Db : Db where
  users := [c1User]
  players := [7]
  teams := [2]
  games := [c7Game]
  gameStats := []
  playerPicks := []
  teamPicks := []
  nextPlayerPickId := 1
  nextTeamPickId := 1

/-- Claim C7 is false as stated: with the referenced game already
finished, both a player pick and a team pick are created successfully;
no validation error is raised. -/
theorem c7_nonscheduled_creation_counterexample :
    c7Game.status = "finished"
  ∧ c7Game.status ≠ "scheduled"
  ∧ createdOk (User.playerPick c7Db "locksmith" 7 1 "points" "over" 11) = true
  ∧ createdOk (User.teamPick c7Db "locksmith" 2 1 "win" 10) = true := by
  refine ⟨rfl, by decide, ?_, ?_⟩
  · rw [@playerPick_insert_ok c7Db "locksmith" 7 1 "points" "over" 11 c1User c7Game
      rfl rfl rfl rfl (Or.inl rfl) rfl]
    rfl
  · rw [@teamPick_insert_ok c7Db "locksmith" 2 1 "win" 10 c1User c7Game
      rfl rfl rfl (Or.inl rfl) rfl]
    rfl

/-- Claim C7 amended: pick creation never consults the status of the
referenced game.  Whenever the user, the target and the game exist, the
stat (for player picks) and the direction keyword are valid and no
conflicting pick exists, creation succeeds whatever the status of the
game is. -/
theorem c7_status_never_checked_amended (db : Db) (username : String)
    (playerId gameId teamId : ℕ) (stat ou ws : String) (v : ℚ) (u : UserRow) (g : Game)
    (hu : db.users.find? (fun x => x.username == username) = some u)
    (hpl : db.players.contains playerId = true)
    (htm : db.teams.contains teamId = true)
    (hg : gameFor db gameId = some g)
    (hst : validPlayerPickStats.contains (strLower stat) = true)
    (hou : strLower ou = "over" ∨ strLower ou = "under")
    (hws : strLower ws = "win" ∨ strLower ws = "spread")
    (hconf : playerPickInsertConflict db username playerId gameId stat = false)
    (hconfT : teamPickInsertConflict db username gameId = false) :
    createdOk (User.playerPick db username playerId gameId stat ou v) = true
  ∧ createdOk (User.teamPick db username teamId gameId ws v) = true := by
  constructor
  · rw [playerPick_insert_ok hu hpl hg hst hou hconf]
    rfl
  · rw [teamPick_insert_ok hu htm hg hws hconfT]
    rfl

theorem c7_status_never_checked_amended_witness :
    createdOk (User.playerPick c7Db "locksmith" 7 1 "points" "over" 11) = true
  ∧ createdOk (User.teamPick c7Db "locksmith" 2 1 "win" 10) = true :=
  c7_status_never_checked_amended c7Db "locksmith" 7 1 2 "points" "over" "win" 11
    c1User c7Game rfl rfl rfl rfl rfl (Or.inl rfl) (Or.inl rfl) rfl rfl

/-- A committed player-pick INSERT implies the uniqueness check found
no conflicting row. -/
lemma playerPick_ok_no_conflict {db : Db} {username : String} {playerId gameId : ℕ}
    {stat ou : String} {v : ℚ} {r : Db × PlayerPick}
    (h : User.playerPick db username playerId gameId stat ou v = .ok r) :
    playerPickInsertConflict db username playerId gameId stat = false := by
  unfold User.playerPick at h
  split at h
  · cases h
  · split at h
    · split at h
      · cases h
      · split at h
        · cases h
        · split at h
          · cases h
          · split at h
            · cases h
            · rename_i hc
              cases hbc : playerPickInsertConflict db username playerId gameId stat with
              | false => rfl
              | true => exact absurd hbc hc
    · cases h

/-- Claim C8: a second player pick with the same (user, player, game,
stat) combination is never committed: every outcome of the call is an
error, so nothing is persisted and the stored first pick is untouched. -/
theorem c8_duplicate_player_pick_rejected (db : Db) (q : PlayerPick)
    (hq : q ∈ db.playerPicks) (username : String) (playerId gameId : ℕ)
    (stat ou : String) (v : ℚ)
    (h1 : q.username = username) (h2 : q.playerId = playerId)
    (h3 : q.gameId = gameId) (h4 : q.stat = stat) :
    createdOk (User.playerPick db username playerId gameId stat ou v) = false := by
  have hconf : playerPickInsertConflict db username playerId gameId stat = true := by
    unfold playerPickInsertConflict
    rw [List.any_eq_true]
    exact ⟨q, hq, by simp [h1, h2, h3, h4]⟩
  cases hres : User.playerPick db username playerId gameId stat ou v with
  | error e => rfl
  | ok r =>
    have := playerPick_ok_no_conflict hres
    rw [hconf] at this
    cases this

def c8Existing : PlayerPick where
  id := 81
  username := "locksmith"
  playerId := 7
  stat := "points"
  overUnder := "OVER"
  value := 20
  gameId := 1
  pointValue := 100
  result := none

def c8Db : Db where
  users := [c1User]
  players := [7]
  teams := []
  games := [{ id := 1, status := "scheduled", winner := none }]
  gameStats := []
  playerPicks := [c8Existing]
  teamPicks := []
  nextPlayerPickId := 82
  nextTeamPickId := 1

theorem c8_duplicate_player_pick_rejected_witness :
    createdOk (User.playerPick c8Db "locksmith" 7 1 "points" "under" 18) = false :=
  c8_duplicate_player_pick_rejected c8Db c8Existing (List.mem_cons_self _ _)
    "locksmith" 7 1 "points" "under" 18 rfl rfl rfl rfl

def c9Db : Db where
  users := [c1User]
  players := [7]
  teams := []
  games := [{ id := 1, status := "scheduled", winner := none }]
  gameStats := []
  playerPicks := []
  teamPicks := []
  nextPlayerPickId := 1
  nextTeamPickId := 1

def c9Game : Game where
  id := 1
  status := "scheduled"
  winner := none

/-- Claim C9 is false as stated: the stat fgm lies outside the claimed
six-element subset, yet a player pick on fgm is accepted. -/
theorem c9_stat_subset_counterexample :
    ¬ ("fgm" ∈ ["points", "rebounds", "assists", "steals", "blocks", "tpm"])
  ∧ createdOk (User.playerPick c9Db "locksmith" 7 1 "fgm" "over" 11) = true := by
  refine ⟨by decide, ?_⟩
  rw [@playerPick_insert_ok c9Db "locksmith" 7 1 "fgm" "over" 11 c1User c9Game
    rfl rfl rfl rfl (Or.inl rfl) rfl]
  rfl

/-- Claim C9 amended: player-pick creation accepts a stat name
case-insensitively iff it belongs to the twelve-element validMethods
list points, fgm, fga, ftm, fta, tpm, tpa, rebounds, assists, steals,
turnovers, blocks; a name outside that list is rejected with a
validation error before the direction or the conflict check runs. -/
theorem c9_stat_validation_amended (db : Db) (username : String)
    (playerId gameId : ℕ) (stat ou : String) (v : ℚ) (u : UserRow) (g : Game)
    (hu : db.users.find? (fun x => x.username == username) = some u)
    (hpl : db.players.contains playerId = true)
    (hg : gameFor db gameId = some g) :
    (validPlayerPickStats.contains (strLower stat) = false →
        User.playerPick db username playerId gameId stat ou v = .error .badRequest)
  ∧ (validPlayerPickStats.contains (strLower stat) = true →
      strLower ou = "over" ∨ strLower ou = "under" →
      playerPickInsertConflict db username playerId gameId stat = false →
      createdOk (User.playerPick db username playerId gameId stat ou v) = true) := by
  constructor
  · intro hst
    have hstB : (!(validPlayerPickStats.contains (strLower stat))) = true := by
      rw [hst]; rfl
    simp only [User.playerPick, hu, hg]
    rw [if_pos hpl, if_pos hstB]
  · intro hst hou hconf
    rw [playerPick_insert_ok hu hpl hg hst hou hconf]
    rfl

theorem c9_stat_validation_amended_witness :
    User.playerPick c9Db "locksmith" 7 1 "fouls" "over" 11 = .error .badRequest
  ∧ createdOk (User.playerPick c9Db "locksmith" 7 1 "tpm" "over" 11) = true := by
  refine ⟨(c9_stat_validation_amended c9Db "locksmith" 7 1 "fouls" "over" 11
      c1User c9Game rfl rfl rfl).1 rfl,
    (c9_stat_validation_amended c9Db "locksmith" 7 1 "tpm" "over" 11
      c1User c9Game rfl rfl rfl).2 rfl (Or.inl rfl) rfl⟩

end OnlyLocks
